import Mathlib

/-!
Verification development for the wng-zipper turn-alternation scheduler.

The definitions below are a shallow embedding of the JavaScript module
(`scripts/zipper/combat.js`, `scripts/zipper/queue.js`,
`scripts/zipper/permissions.js`, `scripts/zipper/hooks.js`).  Pure
computations become Lean functions; flag reads become explicit
parameters; flag writes (persistence) are modelled by the values the
code would write together with boolean dirty flags.
-/

namespace WngZipper

/-- The two combat sides, `"pc"` and `"npc"` in the source. -/
inductive Side where
  | pc
  | npc
deriving DecidableEq, Repr

/-- Flip a side, as in `previousSide === "pc" ? "npc" : "pc"`. -/
def flipSide : Side → Side
  | Side.pc => Side.npc
  | Side.npc => Side.pc

/-- constants.js: `PLAYERS_SIDE = "pc"`. -/
def PLAYERS_SIDE : Side := Side.pc

/-- constants.js: `SIDE_LABELS = { pc: "PCs", npc: "NPCs" }`, read through
permissions.js `toSideLabel`. -/
def toSideLabel : Side → String
  | Side.pc => "PCs"
  | Side.npc => "NPCs"

/-- A participant document as the scheduler reads it.  Fields mirror the
optional host fields the code probes: `actor.hasPlayerOwner`,
`token.disposition`, `isDefeated` with the `defeated` fallback,
`isComplete`, the wrath-and-glory `combatStatus` flag, `hidden`, and the
evaluator-entry projections `side` and `acted` (absent on raw documents). -/
structure Combatant where
  id : String
  hasPlayerOwner : Option Bool
  disposition : Option Int
  isDefeated : Option Bool
  defeated : Option Bool
  isComplete : Option Bool
  combatStatus : Option String
  hidden : Bool
  side : Option Side
  acted : Option Bool
deriving DecidableEq, Repr

/-- permissions.js `isPC`: a boolean `actor.hasPlayerOwner` wins, otherwise
the token disposition must equal 1. -/
def isPC (c : Combatant) : Bool :=
  match c.hasPlayerOwner with
  | some b => b
  | none => c.disposition == some 1

/-- The side computed as `isPC(c) ? "pc" : "npc"`. -/
def sideOfCombatant (c : Combatant) : Side :=
  if isPC c then Side.pc else Side.npc

/-- The defeated test `c.isDefeated ?? c.defeated ?? false`. -/
def defeatedOf (c : Combatant) : Bool :=
  (c.isDefeated.getD (c.defeated.getD false))

/-- permissions.js `isCombatantComplete`: `entry.isComplete === true`, or the
resolved document (the same object here) reports `isComplete === true` or a
`combatStatus` flag equal to `"complete"`. -/
def isCombatantComplete (c : Combatant) : Bool :=
  c.isComplete == some true || c.combatStatus == some "complete"

/-- combat.js entry building: `isComplete: doc?.isComplete ?? status === "complete"`. -/
def entryComplete (c : Combatant) : Bool :=
  c.isComplete.getD (c.combatStatus == some "complete")

/-- queue.js validation: `entry.side ?? (isPC(entry) ? "pc" : "npc")`. -/
def entrySideOf (c : Combatant) : Side :=
  match c.side with
  | some s => s
  | none => sideOfCombatant c

/-- queue.js validation: `entry.acted ?? false`. -/
def entryActedOf (c : Combatant) : Bool :=
  c.acted.getD false

/-- The per-side queue record `{ pc: ParticipantId|null, npc: ParticipantId|null }`. -/
structure Queue where
  pc : Option String
  npc : Option String
deriving DecidableEq, Repr

/-- queue.js `emptyQueue`. -/
def emptyQueue : Queue := ⟨none, none⟩

/-- Slot projection by side. -/
def Queue.get (q : Queue) : Side → Option String
  | Side.pc => q.pc
  | Side.npc => q.npc

/-- Slot replacement by side, as in `{ ...queue, [side]: v }`. -/
def Queue.set (q : Queue) : Side → Option String → Queue
  | Side.pc, v => ⟨v, q.npc⟩
  | Side.npc, v => ⟨q.pc, v⟩

/-- JavaScript truthiness of a string-or-null slot: null and the empty
string are falsy. -/
def optTruthy : Option String → Bool
  | some s => !s.isEmpty
  | none => false

/-- A stored flag value of arbitrary JavaScript type. -/
inductive StoredVal where
  | vstr (s : String)
  | vnum (n : Int)
  | vbool (b : Bool)
deriving DecidableEq, Repr

/-- JavaScript truthiness of an optional stored value. -/
def svTruthy : Option StoredVal → Bool
  | some (StoredVal.vstr s) => !s.isEmpty
  | some (StoredVal.vnum n) => n != 0
  | some (StoredVal.vbool b) => b
  | none => false

/-- The raw persisted queue flag: each slot may hold any value or be absent. -/
structure RawQueue where
  pc : Option StoredVal
  npc : Option StoredVal
deriving DecidableEq, Repr

/-- One slot of queue.js `cloneQueueState`: `typeof v === "string" && v.length ? v : null`. -/
def normSlot : Option StoredVal → Option String
  | some (StoredVal.vstr s) => if s.isEmpty then none else some s
  | _ => none

/-- queue.js `cloneQueueState` applied to a raw stored flag value. -/
def cloneQueueState (q : RawQueue) : Queue :=
  ⟨normSlot q.pc, normSlot q.npc⟩

/-- queue.js `cloneQueueState` applied to an already string-or-null record:
the same normalization, keeping only non-empty strings. -/
def cloneQueue (q : Queue) : Queue :=
  ⟨match q.pc with
    | some s => if s.isEmpty then none else some s
    | none => none,
   match q.npc with
    | some s => if s.isEmpty then none else some s
    | none => none⟩

/-- A slot is well formed when it is null or a non-empty string. -/
def slotWF : Option String → Bool
  | none => true
  | some s => !s.isEmpty

/-- A queue is well formed when both slots are. -/
def queueWF (q : Queue) : Bool :=
  slotWF q.pc && slotWF q.npc

/-- The legacy manual-choice flag interpreted as a participant id: only a
string compares equal (`===`) to a participant id or resolves through the
id-keyed combatant collection. -/
def legacyIdOf : Option StoredVal → Option String
  | some (StoredVal.vstr s) => some s
  | _ => none

/-- Entries inserted into `mappedEntries`: items with a falsy id are skipped. -/
def mapListOf (l : List Combatant) : List Combatant :=
  l.filter (fun e => !e.id.isEmpty)

/-- queue.js `readQueuedChoices`: the lookup list behind `mappedEntries`,
built from `entries` and falling back to `combat.combatants` when no entry
carried an id. -/
def mappedOf (entries combatants : List Combatant) : List Combatant :=
  if (mapListOf entries).isEmpty then mapListOf combatants else mapListOf entries

/-- Lookup with insertion-order overwrite semantics: the last inserted entry
with the id wins, as with a JavaScript Map. -/
def mapLookupR (l : List Combatant) (qid : String) : Option Combatant :=
  l.reverse.find? (fun e => e.id == qid)

/-- One side of the re-validation loop in queue.js `readQueuedChoices`
(the queue-store read): a falsy slot is skipped, an absent referent, a side
mismatch, or a defeated / acted / complete referent clears the slot and
marks the queue dirty.  Returns the corrected slot and the dirty bit. -/
def checkQueueSlotR (mapped : List Combatant) (side : Side) (slot : Option String) :
    Option String × Bool :=
  match slot with
  | none => (none, false)
  | some qid =>
    if qid.isEmpty then (some qid, false)
    else
      match mapLookupR mapped qid with
      | none => (none, true)
      | some e =>
        if !(entrySideOf e == side) then (none, true)
        else if defeatedOf e || entryActedOf e
            || (e.isComplete == some true || isCombatantComplete e) then (none, true)
        else (some qid, false)

/-- The side inferred for a legacy manual-choice value inside
`readQueuedChoices`: `entry.side` of a matching entry (which may itself be
absent on raw documents), else the `isPC`-derived side of the matching
combatant-collection document, else none. -/
def legacySideOf (legacy : Option StoredVal) (entries combatants : List Combatant) :
    Option Side :=
  match (legacyIdOf legacy).bind (fun lid => entries.find? (fun e => e.id == lid)) with
  | some e => e.side
  | none =>
    match (legacyIdOf legacy).bind (fun lid => combatants.find? (fun c => c.id == lid)) with
    | some doc => some (sideOfCombatant doc)
    | none => none

/-- The legacy-migration step of `readQueuedChoices`: a truthy legacy value
whose side can be inferred fills an empty slot of that side. -/
def legacyMigrate (legacy : Option StoredVal) (entries combatants : List Combatant)
    (queue : Queue) : Queue :=
  if svTruthy legacy then
    match legacySideOf legacy entries combatants, legacyIdOf legacy with
    | some s, some lid => if optTruthy (queue.get s) then queue else queue.set s (some lid)
    | _, _ => queue
  else queue

/-- queue.js `readQueuedChoices(combat, entries)`: normalize the stored flag,
migrate the legacy single-value form, then re-validate every slot against the
participant list, silently dropping invalid entries.  The returned boolean is
the `dirty` bit: when set the source attempts a best-effort write-back inside
`try { await persistQueuedChoices(...) } catch (err) { log(err); }`, so a
failed write is logged and never thrown, and the corrected in-memory value is
returned regardless. -/
def readQueuedChoices (raw : RawQueue) (legacy : Option StoredVal)
    (entries combatants : List Combatant) : Queue × Bool :=
  let queue0 := cloneQueueState raw
  let queue1 := legacyMigrate legacy entries combatants queue0
  let mapped := mappedOf entries combatants
  let pcRes := checkQueueSlotR mapped Side.pc queue1.pc
  let npcRes := checkQueueSlotR mapped Side.npc queue1.npc
  (⟨pcRes.1, npcRes.1⟩, pcRes.2 || npcRes.2)

/-- queue.js `applyQueuedChoiceFlags`: the value written to (and returned
from) the flag store is the normalized clone; the flag writes themselves are
effects outside this model. -/
def applyQueuedChoiceFlags (q : Queue) : Queue :=
  cloneQueue q

/-- queue.js `persistQueuedChoices`: normalizes and returns the value it
persists (directly or through the GM socket bridge). -/
def persistQueuedChoices (q : Queue) : Queue :=
  cloneQueue q

/-- queue.js `updateQueuedChoice(combat, side, combatantId)`: reads the
current queue (with no entries supplied, so validation falls back to the
combatant collection), then returns it unchanged if the slot already holds
`combatantId ?? null`, else returns the record with that slot replaced by the
raw `combatantId`.  The persisted value goes through `persistQueuedChoices`
and is normalized, but the returned record is not. -/
def updateQueuedChoice (raw : RawQueue) (legacy : Option StoredVal)
    (combatants : List Combatant) (side : Side) (combatantId : Option String) : Queue :=
  let current := (readQueuedChoices raw legacy [] combatants).1
  let nextId := combatantId
  if current.get side == nextId then current
  else current.set side nextId

/-- The Turn Evaluator output of combat.js `computeNextZipperCombatant`:
`{type:"idle"}`, the (unreachable) idle-with-queue fallthrough, the
round-over decision, or an activation. -/
inductive Decision where
  | idle : Decision
  | stall (queue : Queue) (queueChanged : Bool) : Decision
  | advanceRound (queue : Queue) (queueChanged : Bool) (startingSide : Side)
      (message : String) : Decision
  | activate (combatant : Combatant) (side : Side) (queue : Queue) (queueChanged : Bool)
      (message : String) : Decision
deriving DecidableEq, Repr

/-- Whether a decision is an activation. -/
def Decision.isActivate : Decision → Bool
  | Decision.activate _ _ _ _ _ => true
  | _ => false

/-- The side carried by an activation. -/
def Decision.sideOf : Decision → Option Side
  | Decision.activate _ s _ _ _ => some s
  | _ => none

/-- The combatant carried by an activation. -/
def Decision.combatantOf : Decision → Option Combatant
  | Decision.activate c _ _ _ _ => some c
  | _ => none

/-- The queue carried by a decision, when it has one. -/
def Decision.queueOf : Decision → Option Queue
  | Decision.stall q _ => some q
  | Decision.advanceRound q _ _ _ => some q
  | Decision.activate _ _ q _ _ => some q
  | Decision.idle => none

/-- The queue-changed flag carried by a decision, when it has one. -/
def Decision.queueChangedOf : Decision → Option Bool
  | Decision.stall _ b => some b
  | Decision.advanceRound _ b _ _ => some b
  | Decision.activate _ _ _ b _ => some b
  | Decision.idle => none

/-- The activation announcement built from `toSideLabel(chosenSide)`. -/
def activateMessage (s : Side) : String :=
  "<em>Alternate Activation:</em> <strong>" ++ toSideLabel s ++ "</strong> act."

/-- The round-over announcement built from `toSideLabel(startingSide)`. -/
def advanceRoundMessage (s : Side) : String :=
  "<strong>Zipper:</strong> All combatants acted. New round ready for <em>"
    ++ toSideLabel s ++ "</em>."

/-- The outcome of validating one queue slot in `computeNextZipperCombatant`:
the corrected slot, whether it changed, and the surviving queued entry. -/
structure SlotCheck where
  slot : Option String
  changed : Bool
  entry : Option Combatant
deriving DecidableEq, Repr

/-- The per-side queue-validation loop of `computeNextZipperCombatant`
(lines with `for (const side of ["pc","npc"])`): a falsy slot is skipped; an
id with no referent in `turns`, a side mismatch computed through `isPC`, or a
defeated / complete / already-acted referent clears the slot and sets
`queueChanged`; otherwise the referent is recorded in `queueEntries`. -/
def checkQueueSlotC (turns : List Combatant) (acted : List String) (side : Side)
    (slot : Option String) : SlotCheck :=
  match slot with
  | none => ⟨none, false, none⟩
  | some qid =>
    if qid.isEmpty then ⟨some qid, false, none⟩
    else
      match turns.find? (fun c => c.id == qid) with
      | none => ⟨none, true, none⟩
      | some entry =>
        if !(sideOfCombatant entry == side) then ⟨none, true, none⟩
        else if defeatedOf entry || isCombatantComplete entry || acted.contains entry.id then
          ⟨none, true, none⟩
        else ⟨some qid, false, some entry⟩

/-- The eligibility predicate of `aliveAvailOfSide`: not defeated, not
complete, not hidden from a non-GM, on the requested side, and not yet in
the acted set. -/
def aliveAvailPred (acted : List String) (isGM : Bool) (side : Side) (c : Combatant) : Bool :=
  !defeatedOf c && !isCombatantComplete c && !(c.hidden && !isGM)
    && ((side == Side.pc) == isPC c) && !(acted.contains c.id)

/-- combat.js `aliveAvailOfSide` inside `computeNextZipperCombatant`. -/
def aliveAvailOfSide (turns : List Combatant) (acted : List String) (isGM : Bool)
    (side : Side) : List Combatant :=
  turns.filter (aliveAvailPred acted isGM side)

/-- combat.js `resolveNextSide`: flip `previousSide`, or fall back to
`startingSide` when it is unset. -/
def resolveNextSide (previousSide : Option Side) (startingSide : Side) : Side :=
  match previousSide with
  | some Side.pc => Side.npc
  | some Side.npc => Side.pc
  | none => startingSide

/-- The two exhaustion flips applied after `resolveNextSide`:
`if (nextSide === "pc" && !pcAvail.length) nextSide = "npc";`
`if (nextSide === "npc" && !npcAvail.length) nextSide = "pc";`. -/
def effSide (pcAvail npcAvail : List Combatant) (previousSide : Option Side)
    (startingSide : Side) : Side :=
  let n0 := resolveNextSide previousSide startingSide
  let n1 := if n0 == Side.pc && pcAvail.isEmpty then Side.npc else n0
  if n1 == Side.npc && npcAvail.isEmpty then Side.pc else n1

/-- The activation record assembled at the end of
`computeNextZipperCombatant`: `chosenSide` recomputed through `isPC`. -/
def mkActivate (chosen : Combatant) (queue : Queue) (queueChanged : Bool) : Decision :=
  let chosenSide := sideOfCombatant chosen
  Decision.activate chosen chosenSide queue queueChanged (activateMessage chosenSide)

/-- The chosen-combatant selection of `computeNextZipperCombatant`: a queued
candidate still present in the pool pre-empts the pool head and clears its
slot with `queueChanged = true`; otherwise the first pool member is chosen;
the remaining branches mirror the source fallthroughs. -/
def finishActivate (nextSide : Side) (candidates : List Combatant)
    (queuedCandidate : Option Combatant) (queue : Queue) (queueChanged : Bool) : Decision :=
  let queuedNext : Option Combatant :=
    match queuedCandidate with
    | some qc => if candidates.any (fun c => c.id == qc.id) then some qc else none
    | none => none
  match queuedNext with
  | some chosen => mkActivate chosen (queue.set nextSide none) true
  | none =>
    match candidates with
    | chosen :: _ => mkActivate chosen queue queueChanged
    | [] =>
      match queuedCandidate with
      | some chosen => mkActivate chosen (queue.set nextSide none) true
      | none => Decision.stall queue queueChanged

/-- The validated pc slot of the `computeNextZipperCombatant` queue loop. -/
def checkedPc (turns : List Combatant) (acted : List String) (q : Queue) : SlotCheck :=
  checkQueueSlotC turns acted Side.pc q.pc

/-- The validated npc slot of the `computeNextZipperCombatant` queue loop. -/
def checkedNpc (turns : List Combatant) (acted : List String) (q : Queue) : SlotCheck :=
  checkQueueSlotC turns acted Side.npc q.npc

/-- The queue after the `computeNextZipperCombatant` validation loop. -/
def checkedQueue (turns : List Combatant) (acted : List String) (q : Queue) : Queue :=
  ⟨(checkedPc turns acted q).slot, (checkedNpc turns acted q).slot⟩

/-- The `queueChanged` bit after the validation loop. -/
def checkedChanged (turns : List Combatant) (acted : List String) (q : Queue) : Bool :=
  (checkedPc turns acted q).changed || (checkedNpc turns acted q).changed

/-- The `queueEntries` record after the validation loop. -/
def checkedEntry (turns : List Combatant) (acted : List String) (q : Queue) :
    Side → Option Combatant
  | Side.pc => (checkedPc turns acted q).entry
  | Side.npc => (checkedNpc turns acted q).entry

/-- The body of `computeNextZipperCombatant` past the flag reads: validate
the queue, partition the eligible pools, and either report the round over
(clearing any queue remnants) or activate on the side computed by
`resolveNextSide` plus the exhaustion flips. -/
def zipperDecide (turns : List Combatant) (acted : List String) (startingSide : Side)
    (previousSide : Option Side) (q1 : Queue) (isGM : Bool) : Decision :=
  let queue := checkedQueue turns acted q1
  let queueChanged := checkedChanged turns acted q1
  let pcAvail := aliveAvailOfSide turns acted isGM Side.pc
  let npcAvail := aliveAvailOfSide turns acted isGM Side.npc
  if pcAvail.isEmpty && npcAvail.isEmpty then
    let shouldClear := optTruthy queue.pc || optTruthy queue.npc
    Decision.advanceRound (if shouldClear then emptyQueue else queue)
      (queueChanged || shouldClear) startingSide (advanceRoundMessage startingSide)
  else
    let nextSide := effSide pcAvail npcAvail previousSide startingSide
    let candidates := if nextSide == Side.pc then pcAvail else npcAvail
    finishActivate nextSide candidates (checkedEntry turns acted q1 nextSide) queue queueChanged

/-- combat.js `computeNextZipperCombatant`, with the awaited flag reads as
parameters: `turns` is `combat.turns`, `acted` the (force-start-cleared)
acted set, `previousSide` the (force-start-cleared) `currentSide` flag,
`queue0` the `readQueuedChoices` result, which the source immediately passes
through `cloneQueueState`.  The `enabled` guard returning `null` lives in
the caller-facing wrapper below. -/
def computeNextZipperCombatant (turns : List Combatant) (acted : List String)
    (startingSide : Side) (previousSide : Option Side) (queue0 : Queue) (isGM : Bool) :
    Decision :=
  if turns.isEmpty then Decision.idle
  else zipperDecide turns acted startingSide previousSide (cloneQueue queue0) isGM

/-- The `enabled` guard of `computeNextZipperCombatant`: a disabled combat
yields `null`. -/
def computeNextZipperGuarded (enabled : Bool) (turns : List Combatant) (acted : List String)
    (startingSide : Side) (previousSide : Option Side) (queue0 : Queue) (isGM : Bool) :
    Option Decision :=
  if enabled then
    some (computeNextZipperCombatant turns acted startingSide previousSide queue0 isGM)
  else none

/-- The scheduling projection built by combat.js `evaluateZipperState`
(display-only groupings, sanitized copies and announcement strings are
omitted; they do not feed back into any decision). -/
structure Plan where
  enabled : Bool
  startingSide : Side
  currentSide : Option Side
  actedIds : List String
  queue : Queue
  options : List Combatant
  choice : Option Combatant
  queueConsumedSide : Option Side
  needsChoice : Bool
  clearActed : Bool
  roundReset : Bool
  allowPlayers : Bool
deriving DecidableEq, Repr

/-- The initial `plan` record of `evaluateZipperState` before any turn data
is consulted. -/
def basePlan (enabled : Bool) (startingSide : Side) (currentSide : Option Side)
    (forceStart allowPlayers : Bool) : Plan :=
  ⟨enabled, startingSide, currentSide, [], emptyQueue, [], none, none, false,
    forceStart, false, allowPlayers⟩

/-- The acted set consulted by the evaluator: cleared on `forceStartOfRound`. -/
def evalActed (forceStart : Bool) (actedFlag : List String) : List String :=
  if forceStart then [] else actedFlag

/-- The per-side queue-validation loop of `evaluateZipperState`: a falsy slot
is skipped; a missing referent, a side mismatch (on the evaluator-computed
side), a defeated referent, or an acted / complete referent nulls the slot;
a surviving referent is recorded in `queueEntries`. -/
def checkQueueSlotE (turns : List Combatant) (acted : List String) (side : Side)
    (slot : Option String) : Option String × Option Combatant :=
  match slot with
  | none => (none, none)
  | some qid =>
    if qid.isEmpty then (some qid, none)
    else
      match turns.find? (fun c => c.id == qid) with
      | none => (none, none)
      | some e =>
        if !(sideOfCombatant e == side) then (none, none)
        else if defeatedOf e then (none, none)
        else if acted.contains e.id || entryComplete e then (none, none)
        else (some qid, some e)

/-- The `queueEntries` record of `evaluateZipperState` after its validation
loop. -/
def queueEntryE (turns : List Combatant) (acted : List String) (q1 : Queue) :
    Side → Option Combatant
  | Side.pc => (checkQueueSlotE turns acted Side.pc q1.pc).2
  | Side.npc => (checkQueueSlotE turns acted Side.npc q1.npc).2

/-- The plan queue of `evaluateZipperState` after its validation loop. -/
def checkedQueueE (turns : List Combatant) (acted : List String) (q1 : Queue) : Queue :=
  ⟨(checkQueueSlotE turns acted Side.pc q1.pc).1,
   (checkQueueSlotE turns acted Side.npc q1.npc).1⟩

/-- combat.js `available(side)` inside `evaluateZipperState`: on the side,
not defeated, not complete, not acted (checked both through the entry flag
and the acted set, which coincide), and not hidden from a non-GM. -/
def availE (turns : List Combatant) (acted : List String) (isGM : Bool)
    (side : Side) : List Combatant :=
  turns.filter fun e =>
    sideOfCombatant e == side && !defeatedOf e && !entryComplete e
      && !(acted.contains e.id) && !(e.hidden && !isGM)

/-- combat.js `freshPool(side)` inside `evaluateZipperState`: the acted set
is ignored (the pool of a freshly reset round). -/
def freshPool (turns : List Combatant) (isGM : Bool) (side : Side) : List Combatant :=
  turns.filter fun e =>
    sideOfCombatant e == side && !defeatedOf e && !entryComplete e && !(e.hidden && !isGM)

/-- combat.js `queuedForSide` inside `evaluateZipperState`: re-checks the
surviving queue entry (defeated, complete, acted-flag or acted-set, the last
two coinciding here). -/
def queuedForSide (qe : Option Combatant) (acted : List String) : Option Combatant :=
  match qe with
  | none => none
  | some e =>
    if defeatedOf e then none
    else if entryComplete e then none
    else if acted.contains e.id then none
    else some e

/-- combat.js `evaluateZipperState` with the awaited reads as parameters:
`queue0` is the `readQueuedChoices` result, cloned on entry as in the
source.  Produces the read-only `Plan` projection: a round-reset preview
when both pools are exhausted, otherwise the queued choice, the default
pool head, or an open `needsChoice` prompt for the player side. -/
def evaluateZipperState (turns : List Combatant) (enabled : Bool) (actedFlag : List String)
    (forceStart : Bool) (startingSide : Side) (currentSideFlag : Option Side)
    (queue0 : Queue) (isGM allowPlayers : Bool) : Plan :=
  let currentSide := if forceStart then none else currentSideFlag
  let plan0 := basePlan enabled startingSide currentSide forceStart allowPlayers
  if !enabled then plan0
  else if turns.isEmpty then plan0
  else
    let acted := evalActed forceStart actedFlag
    let q1 := cloneQueue queue0
    let queue := checkedQueueE turns acted q1
    let pcAvail := availE turns acted isGM Side.pc
    let npcAvail := availE turns acted isGM Side.npc
    let previousSide := currentSide
    if pcAvail.isEmpty && npcAvail.isEmpty then
      let nextSide := startingSide
      let queuedNext := queuedForSide (queueEntryE turns acted q1 nextSide) acted
      let options := freshPool turns isGM startingSide
      let choice := match queuedNext with
        | some q => some q
        | none => options.head?
      { plan0 with
        actedIds := acted
        queue := queue
        options := options
        choice := choice
        queueConsumedSide := if queuedNext.isSome then some nextSide else none
        clearActed := true
        roundReset := true }
    else
      let nextSide := effSide pcAvail npcAvail previousSide startingSide
      let options := if nextSide == Side.pc then pcAvail else npcAvail
      if options.isEmpty then
        { plan0 with
          actedIds := acted
          queue := queue }
      else
        match queuedForSide (queueEntryE turns acted q1 nextSide) acted with
        | some q =>
          { plan0 with
            actedIds := acted
            queue := queue
            options := options
            choice := some q
            queueConsumedSide := some nextSide }
        | none =>
          let needsChoice := nextSide == Side.pc && allowPlayers
            && decide (1 < options.length)
          { plan0 with
            actedIds := acted
            queue := queue
            options := options
            choice := if needsChoice then none else options.head?
            needsChoice := needsChoice }

/-- constants.js `SOCKET_TIMEOUT_MS = 8000`. -/
def SOCKET_TIMEOUT_MS : Nat := 8000

/-- How a call to queue.js `sendSocketRequest` leaves the caller: handled
locally (GM path), rejected synchronously with a message, or suspended on a
pending reply. -/
inductive SendPhase where
  | localHandled : SendPhase
  | rejected (msg : String) : SendPhase
  | awaitingReply : SendPhase
deriving DecidableEq, Repr

/-- The observable synchronous effects of one `sendSocketRequest` call:
its phase, whether a request envelope was emitted on the socket, and whether
the timeout timer was started. -/
structure SendAttempt where
  phase : SendPhase
  emitted : Bool
  timerStarted : Bool
deriving DecidableEq, Repr

/-- queue.js `sendSocketRequest`: a GM processes the action in-process; a
non-GM first requires the socket channel, then at least one active GM user
(`game.users.some(u => u.isGM && u.active)`) — both checks throw before the
request id is generated, before the timeout timer is created, and before
anything is emitted; only past them is the envelope emitted with a pending
timer. -/
def sendSocketRequest (isGM socketAvailable hasActiveGm : Bool) : SendAttempt :=
  if isGM then ⟨SendPhase.localHandled, false, false⟩
  else if !socketAvailable then ⟨SendPhase.rejected "Socket channel unavailable.", false, false⟩
  else if !hasActiveGm then ⟨SendPhase.rejected "No active GM to process request.", false, false⟩
  else ⟨SendPhase.awaitingReply, true, true⟩

/-- How a pending `sendSocketRequest` eventually settles, tagged with the
settlement time in milliseconds after the send. -/
inductive ReplyResult where
  | resolved (t : Nat) : ReplyResult
  | gmFailed (t : Nat) : ReplyResult
  | timedOut (t : Nat) : ReplyResult
deriving DecidableEq, Repr

/-- The rejection message of the timeout timer in `sendSocketRequest`. -/
def timeoutMessage : String := "GM request timed out."

/-- The pending-request lifecycle of `sendSocketRequest` /
`handleSocketResponse`: a reply arriving before the timer fires clears the
timer and settles the promise at the reply time (success or the GM error);
otherwise the timer rejects with `timeoutMessage` exactly when `timeoutMs`
elapses, and the pending entry is removed so a late reply is ignored. -/
def pendingResolution (timeoutMs : Nat) (replyAt : Option Nat) (replySuccess : Bool) :
    ReplyResult :=
  match replyAt with
  | some t =>
    if t < timeoutMs then
      if replySuccess then ReplyResult.resolved t else ReplyResult.gmFailed t
    else ReplyResult.timedOut timeoutMs
  | none => ReplyResult.timedOut timeoutMs

/-- How the round-complete dialog of combat.js `promptRoundAdvanceOrEnd`
terminates: one of its two buttons, or any dismissal without a button press
(escape, the close icon, programmatic close). -/
inductive PromptEvent where
  | pressNext : PromptEvent
  | pressEnd : PromptEvent
  | dismissed : PromptEvent
deriving DecidableEq, Repr

/-- The operator decision reported by `promptRoundAdvanceOrEnd`. -/
inductive PromptOutcome where
  | nextRound : PromptOutcome
  | endCombat : PromptOutcome
deriving DecidableEq, Repr

/-- combat.js `promptRoundAdvanceOrEnd` as a function of how the dialog
terminates: the `close` handler resolves `{ action: "next-round" }` whenever
no button resolved the promise first. -/
def promptRoundAdvanceOrEnd : PromptEvent → PromptOutcome
  | PromptEvent.pressNext => PromptOutcome.nextRound
  | PromptEvent.pressEnd => PromptOutcome.endCombat
  | PromptEvent.dismissed => PromptOutcome.nextRound

/-- hooks.js `nextTurn` wrapper, advance-round arm: the decision defaults to
`next-round` and only a GM evaluation consults the prompt (whose failure is
also caught into `next-round`). -/
def boundaryDecision (isGM : Bool) (ev : PromptEvent) : PromptOutcome :=
  if isGM then promptRoundAdvanceOrEnd ev else PromptOutcome.nextRound

/-- What the `nextTurn` wrapper physically does with a boundary decision. -/
inductive BoundaryAction where
  | advanceRound : BoundaryAction
  | endCombat : BoundaryAction
deriving DecidableEq, Repr

/-- hooks.js `nextTurn` wrapper: `end-combat` calls `combat.endCombat()`,
every other decision value falls through to `combat.nextRound()`. -/
def nextTurnBoundaryAction : PromptOutcome → BoundaryAction
  | PromptOutcome.endCombat => BoundaryAction.endCombat
  | PromptOutcome.nextRound => BoundaryAction.advanceRound

/-- A live, visible player-side combatant (concrete test data). -/
def mkPc (i : String) : Combatant :=
  ⟨i, some true, none, none, none, none, none, false, none, none⟩

/-- A live, visible npc-side combatant (concrete test data). -/
def mkNpc (i : String) : Combatant :=
  ⟨i, some false, none, none, none, none, none, false, none, none⟩

/-- A defeated player-side combatant (concrete test data). -/
def mkDeadPc (i : String) : Combatant :=
  ⟨i, some true, none, some true, none, none, none, false, none, none⟩

/-- The side `computeNextZipperCombatant` and `evaluateZipperState` end up
activating on (resolve, then the exhaustion flips), spelled out on the
`aliveAvailOfSide` pools. -/
def effSideOf (turns : List Combatant) (acted : List String) (isGM : Bool)
    (previousSide : Option Side) (startingSide : Side) : Side :=
  effSide (aliveAvailOfSide turns acted isGM Side.pc)
    (aliveAvailOfSide turns acted isGM Side.npc) previousSide startingSide

end WngZipper

namespace WngZipper

theorem isEmpty_false_of_ne_nil {α : Type} {l : List α} (h : l ≠ []) : l.isEmpty = false := by
  simp [List.isEmpty_iff, h]

theorem str_isEmpty_false {s : String} (h : s ≠ "") : s.isEmpty = false := by
  cases he : s.isEmpty
  · rfl
  · exact absurd ((String.isEmpty_iff s).mp he) h

theorem mem_aliveAvail_pred {turns : List Combatant} {acted : List String} {isGM : Bool}
    {s : Side} {c : Combatant} (h : c ∈ aliveAvailOfSide turns acted isGM s) :
    aliveAvailPred acted isGM s c = true :=
  (List.mem_filter.mp h).2

theorem mem_aliveAvail_turns {turns : List Combatant} {acted : List String} {isGM : Bool}
    {s : Side} {c : Combatant} (h : c ∈ aliveAvailOfSide turns acted isGM s) : c ∈ turns :=
  (List.mem_filter.mp h).1

theorem aliveAvailPred_parts {acted : List String} {isGM : Bool} {s : Side} {c : Combatant}
    (h : aliveAvailPred acted isGM s c = true) :
    defeatedOf c = false ∧ isCombatantComplete c = false
      ∧ ((s == Side.pc) == isPC c) = true ∧ acted.contains c.id = false := by
  simp only [aliveAvailPred, Bool.and_eq_true, Bool.not_eq_true'] at h
  exact ⟨h.1.1.1.1, h.1.1.1.2, h.1.2, h.2⟩

theorem side_of_pred {s : Side} {c : Combatant} (h : ((s == Side.pc) == isPC c) = true) :
    sideOfCombatant c = s := by
  cases s <;> cases hPC : isPC c <;> simp_all [sideOfCombatant]

theorem effSide_both {pcA npcA : List Combatant} (h1 : pcA ≠ []) (h2 : npcA ≠ [])
    (prev : Option Side) (start : Side) :
    effSide pcA npcA prev start = resolveNextSide prev start := by
  simp [effSide, isEmpty_false_of_ne_nil h1, isEmpty_false_of_ne_nil h2]

theorem effSide_pc_empty {pcA npcA : List Combatant} (h1 : pcA = []) (h2 : npcA ≠ [])
    (prev : Option Side) (start : Side) : effSide pcA npcA prev start = Side.npc := by
  subst h1
  have e2 := isEmpty_false_of_ne_nil h2
  simp only [effSide, List.isEmpty_nil, Bool.and_true, e2, Bool.and_false]
  cases resolveNextSide prev start <;> simp

theorem effSide_npc_empty {pcA npcA : List Combatant} (h1 : npcA = []) (h2 : pcA ≠ [])
    (prev : Option Side) (start : Side) : effSide pcA npcA prev start = Side.pc := by
  subst h1
  have e2 := isEmpty_false_of_ne_nil h2
  simp only [effSide, List.isEmpty_nil, Bool.and_true, e2, Bool.and_false]
  cases resolveNextSide prev start <;> simp

theorem Queue.get_set_same (q : Queue) (s : Side) (v : Option String) :
    (q.set s v).get s = v := by
  cases s <;> rfl

theorem checkedEntry_eq (turns : List Combatant) (acted : List String) (q1 : Queue)
    (s : Side) :
    checkedEntry turns acted q1 s = (checkQueueSlotC turns acted s (q1.get s)).entry := by
  cases s <;> rfl

theorem checkedQueue_get (turns : List Combatant) (acted : List String) (q1 : Queue)
    (s : Side) :
    (checkedQueue turns acted q1).get s = (checkQueueSlotC turns acted s (q1.get s)).slot := by
  cases s <;> rfl

theorem pool_select (turns : List Combatant) (acted : List String) (isGM : Bool) (s : Side) :
    (if s == Side.pc then aliveAvailOfSide turns acted isGM Side.pc
      else aliveAvailOfSide turns acted isGM Side.npc) = aliveAvailOfSide turns acted isGM s := by
  cases s <;> rfl

theorem both_empty_false {turns : List Combatant} {acted : List String} {isGM : Bool}
    {s : Side} (h : aliveAvailOfSide turns acted isGM s ≠ []) :
    ((aliveAvailOfSide turns acted isGM Side.pc).isEmpty
      && (aliveAvailOfSide turns acted isGM Side.npc).isEmpty) = false := by
  cases s
  · simp [isEmpty_false_of_ne_nil h]
  · simp [isEmpty_false_of_ne_nil h]

theorem checkQueueSlotC_entry_side {turns : List Combatant} {acted : List String}
    {side : Side} {slot : Option String} {e : Combatant}
    (h : (checkQueueSlotC turns acted side slot).entry = some e) :
    sideOfCombatant e = side := by
  unfold checkQueueSlotC at h
  split at h
  · simp at h
  · split at h
    · simp at h
    · split at h
      · simp at h
      · split at h
        · simp at h
        · split at h
          · simp at h
          · rename_i entry _hfind hside _hflags
            simp only [SlotCheck.entry] at h
            cases h
            simp at hside
            exact hside

theorem checkQueueSlotC_keep {turns : List Combatant} {acted : List String} {side : Side}
    {p : Combatant}
    (hid : p.id ≠ "")
    (hfind : turns.find? (fun c => c.id == p.id) = some p)
    (hside : ((side == Side.pc) == isPC p) = true)
    (hdef : defeatedOf p = false) (hcomp : isCombatantComplete p = false)
    (hact : acted.contains p.id = false) :
    checkQueueSlotC turns acted side (some p.id) = ⟨some p.id, false, some p⟩ := by
  have hne : p.id.isEmpty = false := str_isEmpty_false hid
  have hsd : sideOfCombatant p = side := side_of_pred hside
  have hact2 : p.id ∉ acted := by simpa using hact
  simp [checkQueueSlotC, hne, hfind, hsd, hdef, hcomp, hact2]

theorem find?_eq_of_nodup {l : List Combatant} {p : Combatant}
    (hnd : (l.map Combatant.id).Nodup) (hp : p ∈ l) :
    l.find? (fun c => c.id == p.id) = some p := by
  induction l with
  | nil => cases hp
  | cons a t ih =>
    rw [List.map_cons, List.nodup_cons] at hnd
    rcases List.mem_cons.mp hp with rfl | hpt
    · exact List.find?_cons_of_pos t (by simp)
    · have hne : (a.id == p.id) = false := by
        cases he : a.id == p.id
        · rfl
        · exact absurd (eq_of_beq he ▸ List.mem_map_of_mem Combatant.id hpt) hnd.1
      rw [List.find?_cons_of_neg t (by simp [hne])]
      exact ih hnd.2 hpt

theorem finishActivate_spec (nextSide : Side) (candidates : List Combatant)
    (qc : Option Combatant) (queue : Queue) (qch : Bool)
    (hc : candidates ≠ [])
    (hcand : ∀ c ∈ candidates, sideOfCombatant c = nextSide)
    (hq : ∀ e, qc = some e → sideOfCombatant e = nextSide) :
    (finishActivate nextSide candidates qc queue qch).isActivate = true ∧
    (finishActivate nextSide candidates qc queue qch).sideOf = some nextSide := by
  cases qc with
  | none =>
    cases candidates with
    | nil => exact absurd rfl hc
    | cons a t =>
      have ha := hcand a (List.mem_cons_self a t)
      simp [finishActivate, mkActivate, ha, Decision.isActivate, Decision.sideOf]
  | some e =>
    have he := hq e rfl
    cases hany : candidates.any (fun c => c.id == e.id) with
    | true =>
      simp [finishActivate, mkActivate, hany, he, Decision.isActivate, Decision.sideOf]
    | false =>
      cases candidates with
      | nil => exact absurd rfl hc
      | cons a t =>
        have ha := hcand a (List.mem_cons_self a t)
        simp [finishActivate, mkActivate, hany, ha, Decision.isActivate, Decision.sideOf]

theorem mem_aliveAvail_side {turns : List Combatant} {acted : List String} {isGM : Bool}
    {s : Side} {c : Combatant} (h : c ∈ aliveAvailOfSide turns acted isGM s) :
    sideOfCombatant c = s :=
  side_of_pred (aliveAvailPred_parts (mem_aliveAvail_pred h)).2.2.1

theorem checkedEntry_side {turns : List Combatant} {acted : List String} {q1 : Queue}
    {s : Side} {e : Combatant} (h : checkedEntry turns acted q1 s = some e) :
    sideOfCombatant e = s := by
  rw [checkedEntry_eq] at h
  exact checkQueueSlotC_entry_side h

theorem aliveAvail_nil_of_turns_nil {acted : List String} {isGM : Bool} {s : Side} :
    aliveAvailOfSide [] acted isGM s = [] := rfl

theorem zipperDecide_activate_branch (turns : List Combatant) (acted : List String)
    (startingSide : Side) (previousSide : Option Side) (q1 : Queue) (isGM : Bool)
    (hbe : ((aliveAvailOfSide turns acted isGM Side.pc).isEmpty
      && (aliveAvailOfSide turns acted isGM Side.npc).isEmpty) = false) :
    zipperDecide turns acted startingSide previousSide q1 isGM
      = finishActivate (effSideOf turns acted isGM previousSide startingSide)
          (aliveAvailOfSide turns acted isGM (effSideOf turns acted isGM previousSide startingSide))
          (checkedEntry turns acted q1 (effSideOf turns acted isGM previousSide startingSide))
          (checkedQueue turns acted q1) (checkedChanged turns acted q1) := by
  simp only [zipperDecide, hbe, Bool.false_eq_true, if_false, effSideOf]
  rw [pool_select]

theorem zipper_activates (turns : List Combatant) (acted : List String) (startingSide : Side)
    (previousSide : Option Side) (queue0 : Queue) (isGM : Bool) (R : Side)
    (hR : effSideOf turns acted isGM previousSide startingSide = R)
    (hfull : aliveAvailOfSide turns acted isGM R ≠ []) :
    (computeNextZipperCombatant turns acted startingSide previousSide queue0 isGM).isActivate
      = true ∧
    (computeNextZipperCombatant turns acted startingSide previousSide queue0 isGM).sideOf
      = some R := by
  have htne : turns ≠ [] := by
    intro h
    subst h
    exact hfull aliveAvail_nil_of_turns_nil
  have ht : turns.isEmpty = false := isEmpty_false_of_ne_nil htne
  have hbe := both_empty_false hfull
  rw [show computeNextZipperCombatant turns acted startingSide previousSide queue0 isGM
      = zipperDecide turns acted startingSide previousSide (cloneQueue queue0) isGM from by
        simp [computeNextZipperCombatant, ht]]
  rw [zipperDecide_activate_branch turns acted startingSide previousSide (cloneQueue queue0)
    isGM hbe, hR]
  exact finishActivate_spec R (aliveAvailOfSide turns acted isGM R)
    (checkedEntry turns acted (cloneQueue queue0) R)
    (checkedQueue turns acted (cloneQueue queue0))
    (checkedChanged turns acted (cloneQueue queue0)) hfull
    (fun c hc => mem_aliveAvail_side hc)
    (fun e he => checkedEntry_side he)

/-- Claim C1: whenever both eligibility pools are non-empty, the decision of
`computeNextZipperCombatant` is an activation on the flip of `previousSide`
(on `startingSide` when `previousSide` is unset), so consecutive activation
decisions strictly alternate sides while both sides still have eligible
actors. -/
theorem c1_alternation (turns : List Combatant) (acted : List String) (startingSide : Side)
    (previousSide : Option Side) (queue0 : Queue) (isGM : Bool)
    (hpc : aliveAvailOfSide turns acted isGM Side.pc ≠ [])
    (hnpc : aliveAvailOfSide turns acted isGM Side.npc ≠ []) :
    (computeNextZipperCombatant turns acted startingSide previousSide queue0 isGM).isActivate
      = true ∧
    (computeNextZipperCombatant turns acted startingSide previousSide queue0 isGM).sideOf
      = some (resolveNextSide previousSide startingSide) := by
  have hR : effSideOf turns acted isGM previousSide startingSide
      = resolveNextSide previousSide startingSide :=
    effSide_both hpc hnpc previousSide startingSide
  have hfull : aliveAvailOfSide turns acted isGM (resolveNextSide previousSide startingSide)
      ≠ [] := by
    cases hv : resolveNextSide previousSide startingSide
    · exact hpc
    · exact hnpc
  exact zipper_activates turns acted startingSide previousSide queue0 isGM _ hR hfull

theorem c1_alternation_witness :
    aliveAvailOfSide [mkPc "a", mkNpc "b"] [] true Side.pc ≠ [] ∧
    aliveAvailOfSide [mkPc "a", mkNpc "b"] [] true Side.npc ≠ [] ∧
    ((computeNextZipperCombatant [mkPc "a", mkNpc "b"] [] Side.pc (some Side.pc)
        emptyQueue true).isActivate = true ∧
      (computeNextZipperCombatant [mkPc "a", mkNpc "b"] [] Side.pc (some Side.pc)
        emptyQueue true).sideOf = some (resolveNextSide (some Side.pc) Side.pc)) :=
  ⟨by decide, by decide,
    c1_alternation [mkPc "a", mkNpc "b"] [] Side.pc (some Side.pc) emptyQueue true
      (by decide) (by decide)⟩

/-- Claim C2: when exactly one eligibility pool is empty and the other is
non-empty, `computeNextZipperCombatant` activates on the non-empty side no
matter what `previousSide` holds, so once a side is exhausted for the round
every later decision of the round selects the other side. -/
theorem c2_exhaustion (turns : List Combatant) (acted : List String) (startingSide : Side)
    (previousSide : Option Side) (queue0 : Queue) (isGM : Bool) (s : Side)
    (hempty : aliveAvailOfSide turns acted isGM s = [])
    (hfull : aliveAvailOfSide turns acted isGM (flipSide s) ≠ []) :
    (computeNextZipperCombatant turns acted startingSide previousSide queue0 isGM).isActivate
      = true ∧
    (computeNextZipperCombatant turns acted startingSide previousSide queue0 isGM).sideOf
      = some (flipSide s) := by
  have hR : effSideOf turns acted isGM previousSide startingSide = flipSide s := by
    cases s
    · exact effSide_pc_empty hempty hfull previousSide startingSide
    · exact effSide_npc_empty hempty hfull previousSide startingSide
  exact zipper_activates turns acted startingSide previousSide queue0 isGM _ hR hfull

theorem c2_exhaustion_witness :
    aliveAvailOfSide [mkDeadPc "a", mkNpc "b"] [] true Side.pc = [] ∧
    aliveAvailOfSide [mkDeadPc "a", mkNpc "b"] [] true (flipSide Side.pc) ≠ [] ∧
    ((computeNextZipperCombatant [mkDeadPc "a", mkNpc "b"] [] Side.pc (some Side.npc)
        emptyQueue true).isActivate = true ∧
      (computeNextZipperCombatant [mkDeadPc "a", mkNpc "b"] [] Side.pc (some Side.npc)
        emptyQueue true).sideOf = some (flipSide Side.pc)) :=
  ⟨by decide, by decide,
    c2_exhaustion [mkDeadPc "a", mkNpc "b"] [] Side.pc (some Side.npc) emptyQueue true
      Side.pc (by decide) (by decide)⟩

theorem clone_pc_slotWF (q : Queue) : slotWF (cloneQueue q).pc = true := by
  cases hp : q.pc with
  | none => simp [cloneQueue, hp, slotWF]
  | some s =>
    by_cases hs : s.isEmpty = true
    · simp [cloneQueue, hp, hs, slotWF]
    · simp [cloneQueue, hp, hs, slotWF]

theorem clone_npc_slotWF (q : Queue) : slotWF (cloneQueue q).npc = true := by
  cases hp : q.npc with
  | none => simp [cloneQueue, hp, slotWF]
  | some s =>
    by_cases hs : s.isEmpty = true
    · simp [cloneQueue, hp, hs, slotWF]
    · simp [cloneQueue, hp, hs, slotWF]

theorem clone_pc_truthy (q : Queue) : optTruthy (cloneQueue q).pc = optTruthy q.pc := by
  cases hp : q.pc with
  | none => simp [cloneQueue, hp, optTruthy]
  | some s =>
    by_cases hs : s.isEmpty = true
    · simp [cloneQueue, hp, hs, optTruthy]
    · simp [cloneQueue, hp, hs, optTruthy]

theorem clone_npc_truthy (q : Queue) : optTruthy (cloneQueue q).npc = optTruthy q.npc := by
  cases hp : q.npc with
  | none => simp [cloneQueue, hp, optTruthy]
  | some s =>
    by_cases hs : s.isEmpty = true
    · simp [cloneQueue, hp, hs, optTruthy]
    · simp [cloneQueue, hp, hs, optTruthy]

theorem slot_none_of {o : Option String} (h1 : slotWF o = true) (h2 : optTruthy o = false) :
    o = none := by
  cases o with
  | none => rfl
  | some s => simp_all [slotWF, optTruthy]

theorem checkSlot_truthy (turns : List Combatant) (acted : List String) (side : Side)
    {slot : Option String} (hwf : slotWF slot = true) :
    ((checkQueueSlotC turns acted side slot).changed
        || optTruthy (checkQueueSlotC turns acted side slot).slot) = optTruthy slot
      ∧ slotWF (checkQueueSlotC turns acted side slot).slot = true := by
  cases slot with
  | none => simp [checkQueueSlotC, optTruthy, slotWF]
  | some qid =>
    have hq : qid.isEmpty = false := by simpa [slotWF] using hwf
    simp only [checkQueueSlotC, hq, Bool.false_eq_true, if_false]
    cases hf : turns.find? (fun c => c.id == qid) with
    | none => simp [optTruthy, slotWF, hq]
    | some e =>
      by_cases h1 : (!(sideOfCombatant e == side)) = true
      · simp [h1, optTruthy, slotWF, hq]
      · by_cases h2 : (defeatedOf e = true ∨ isCombatantComplete e = true) ∨ e.id ∈ acted
        · simp [h1, h2, optTruthy, slotWF, hq]
        · simp [h1, h2, optTruthy, slotWF, hq]

/-- Claim C3: when both eligibility pools are empty on a non-empty turn
list, `computeNextZipperCombatant` returns the advance-round decision
carrying `startingSide`, its queue is fully cleared, and the queue-changed
flag is set exactly when some queue entry was present. -/
theorem c3_round_over (turns : List Combatant) (acted : List String) (startingSide : Side)
    (previousSide : Option Side) (queue0 : Queue) (isGM : Bool)
    (ht : turns ≠ [])
    (hpc : aliveAvailOfSide turns acted isGM Side.pc = [])
    (hnpc : aliveAvailOfSide turns acted isGM Side.npc = []) :
    computeNextZipperCombatant turns acted startingSide previousSide queue0 isGM
      = Decision.advanceRound emptyQueue (optTruthy queue0.pc || optTruthy queue0.npc)
          startingSide (advanceRoundMessage startingSide) := by
  have ht2 : turns.isEmpty = false := isEmpty_false_of_ne_nil ht
  rw [show computeNextZipperCombatant turns acted startingSide previousSide queue0 isGM
      = zipperDecide turns acted startingSide previousSide (cloneQueue queue0) isGM from by
        simp [computeNextZipperCombatant, ht2]]
  have hbe : ((aliveAvailOfSide turns acted isGM Side.pc).isEmpty
      && (aliveAvailOfSide turns acted isGM Side.npc).isEmpty) = true := by
    simp [hpc, hnpc]
  obtain ⟨hA, hAwf⟩ :=
    checkSlot_truthy turns acted Side.pc (clone_pc_slotWF queue0)
  obtain ⟨hB, hBwf⟩ :=
    checkSlot_truthy turns acted Side.npc (clone_npc_slotWF queue0)
  simp only [zipperDecide, hbe, if_true, checkedQueue, checkedChanged, checkedPc, checkedNpc]
  have hfold :
      (((checkQueueSlotC turns acted Side.pc (cloneQueue queue0).pc).changed
          || (checkQueueSlotC turns acted Side.npc (cloneQueue queue0).npc).changed)
        || (optTruthy (checkQueueSlotC turns acted Side.pc (cloneQueue queue0).pc).slot
          || optTruthy (checkQueueSlotC turns acted Side.npc (cloneQueue queue0).npc).slot))
      = (optTruthy queue0.pc || optTruthy queue0.npc) := by
    rw [show ∀ a b c d : Bool, ((a || c) || (b || d)) = ((a || b) || (c || d)) from by
      intro a b c d
      cases a <;> cases b <;> cases c <;> cases d <;> rfl]
    rw [hA, hB, clone_pc_truthy, clone_npc_truthy]
  rw [hfold]
  cases hsc : (optTruthy (checkQueueSlotC turns acted Side.pc (cloneQueue queue0).pc).slot
      || optTruthy (checkQueueSlotC turns acted Side.npc (cloneQueue queue0).npc).slot) with
  | true => simp [hsc]
  | false =>
    have hcomp := hsc
    simp only [Bool.or_eq_false_iff] at hcomp
    have hno1 := slot_none_of hAwf hcomp.1
    have hno2 := slot_none_of hBwf hcomp.2
    simp [hsc, hno1, hno2, emptyQueue]

theorem c3_round_over_witness :
    ([mkPc "a", mkNpc "b"] : List Combatant) ≠ [] ∧
    aliveAvailOfSide [mkPc "a", mkNpc "b"] ["a", "b"] true Side.pc = [] ∧
    aliveAvailOfSide [mkPc "a", mkNpc "b"] ["a", "b"] true Side.npc = [] ∧
    computeNextZipperCombatant [mkPc "a", mkNpc "b"] ["a", "b"] Side.pc (some Side.pc)
        (Queue.mk (some "a") none) true
      = Decision.advanceRound emptyQueue
          (optTruthy (Queue.mk (some "a") none).pc || optTruthy (Queue.mk (some "a") none).npc)
          Side.pc (advanceRoundMessage Side.pc) :=
  ⟨by decide, by decide, by decide,
    c3_round_over [mkPc "a", mkNpc "b"] ["a", "b"] Side.pc (some Side.pc)
      (Queue.mk (some "a") none) true (by decide) (by decide) (by decide)⟩

theorem slotWF_some {o : Option String} {x : String} (hwf : slotWF o = true)
    (h : o = some x) : x ≠ "" := by
  subst h
  intro he
  subst he
  simp [slotWF] at hwf
  exact absurd hwf (by decide)

theorem cloneQueue_get_slotWF (q : Queue) (s : Side) : slotWF ((cloneQueue q).get s) = true := by
  cases s
  · exact clone_pc_slotWF q
  · exact clone_npc_slotWF q

theorem zipperQueuedSel (turns : List Combatant) (acted : List String) (startingSide : Side)
    (previousSide : Option Side) (queue0 : Queue) (isGM : Bool) (p : Combatant)
    (hnd : (turns.map Combatant.id).Nodup)
    (hq : (cloneQueue queue0).get (effSideOf turns acted isGM previousSide startingSide)
        = some p.id)
    (hp : p ∈ aliveAvailOfSide turns acted isGM
        (effSideOf turns acted isGM previousSide startingSide)) :
    computeNextZipperCombatant turns acted startingSide previousSide queue0 isGM
      = Decision.activate p (effSideOf turns acted isGM previousSide startingSide)
          ((checkedQueue turns acted (cloneQueue queue0)).set
            (effSideOf turns acted isGM previousSide startingSide) none)
          true
          (activateMessage (effSideOf turns acted isGM previousSide startingSide)) := by
  have hmem : p ∈ turns := mem_aliveAvail_turns hp
  have htne : turns ≠ [] := List.ne_nil_of_mem hmem
  have ht2 : turns.isEmpty = false := isEmpty_false_of_ne_nil htne
  have hfull : aliveAvailOfSide turns acted isGM
      (effSideOf turns acted isGM previousSide startingSide) ≠ [] := List.ne_nil_of_mem hp
  have hbe := both_empty_false hfull
  have hid : p.id ≠ "" := slotWF_some (cloneQueue_get_slotWF queue0 _) hq
  have hfind := find?_eq_of_nodup hnd hmem
  have hparts := aliveAvailPred_parts (mem_aliveAvail_pred hp)
  have hsc : sideOfCombatant p = effSideOf turns acted isGM previousSide startingSide :=
    side_of_pred hparts.2.2.1
  have hkeep := checkQueueSlotC_keep hid hfind hparts.2.2.1 hparts.1 hparts.2.1 hparts.2.2.2
  have hce : checkedEntry turns acted (cloneQueue queue0)
      (effSideOf turns acted isGM previousSide startingSide) = some p := by
    rw [checkedEntry_eq, hq, hkeep]
  have hany : (aliveAvailOfSide turns acted isGM
      (effSideOf turns acted isGM previousSide startingSide)).any
        (fun c => c.id == p.id) = true :=
    List.any_eq_true.mpr ⟨p, hp, by simp⟩
  rw [show computeNextZipperCombatant turns acted startingSide previousSide queue0 isGM
      = zipperDecide turns acted startingSide previousSide (cloneQueue queue0) isGM from by
        simp [computeNextZipperCombatant, ht2]]
  rw [zipperDecide_activate_branch turns acted startingSide previousSide (cloneQueue queue0)
    isGM hbe, hce]
  simp only [finishActivate, hany, if_true, mkActivate, hsc]

/-- Claim C4: when the side the evaluator settles on has a queued
participant that is still in that side eligibility pool, the decision of
`computeNextZipperCombatant` selects that participant, not the first pool
member in turn-list order. -/
theorem c4_queue_preemption (turns : List Combatant) (acted : List String)
    (startingSide : Side) (previousSide : Option Side) (queue0 : Queue) (isGM : Bool)
    (p : Combatant)
    (hnd : (turns.map Combatant.id).Nodup)
    (hq : (cloneQueue queue0).get (effSideOf turns acted isGM previousSide startingSide)
        = some p.id)
    (hp : p ∈ aliveAvailOfSide turns acted isGM
        (effSideOf turns acted isGM previousSide startingSide)) :
    (computeNextZipperCombatant turns acted startingSide previousSide queue0 isGM).combatantOf
      = some p := by
  rw [zipperQueuedSel turns acted startingSide previousSide queue0 isGM p hnd hq hp]
  rfl

theorem c4_queue_preemption_witness :
    (([mkPc "a", mkPc "b"].map Combatant.id).Nodup) ∧
    (cloneQueue (Queue.mk (some "b") none)).get
        (effSideOf [mkPc "a", mkPc "b"] [] true none Side.pc) = some (mkPc "b").id ∧
    mkPc "b" ∈ aliveAvailOfSide [mkPc "a", mkPc "b"] [] true
        (effSideOf [mkPc "a", mkPc "b"] [] true none Side.pc) ∧
    (computeNextZipperCombatant [mkPc "a", mkPc "b"] [] Side.pc none
        (Queue.mk (some "b") none) true).combatantOf = some (mkPc "b") :=
  ⟨by decide, by decide, by decide,
    c4_queue_preemption [mkPc "a", mkPc "b"] [] Side.pc none (Queue.mk (some "b") none) true
      (mkPc "b") (by decide) (by decide) (by decide)⟩

/-- Claim C5: when the decision of `computeNextZipperCombatant` selects the
queued participant of the settled side, the returned queue has that side
slot nulled and the queue-changed flag is true, so applying the decision
persists the cleared slot and the queued choice cannot be consumed twice. -/
theorem c5_queue_cleared_on_consume (turns : List Combatant) (acted : List String)
    (startingSide : Side) (previousSide : Option Side) (queue0 : Queue) (isGM : Bool)
    (p : Combatant)
    (hnd : (turns.map Combatant.id).Nodup)
    (hq : (cloneQueue queue0).get (effSideOf turns acted isGM previousSide startingSide)
        = some p.id)
    (hp : p ∈ aliveAvailOfSide turns acted isGM
        (effSideOf turns acted isGM previousSide startingSide)) :
    ((computeNextZipperCombatant turns acted startingSide previousSide queue0 isGM).queueOf).map
        (fun q => q.get (effSideOf turns acted isGM previousSide startingSide)) = some none ∧
    (computeNextZipperCombatant turns acted startingSide previousSide queue0 isGM).queueChangedOf
      = some true := by
  rw [zipperQueuedSel turns acted startingSide previousSide queue0 isGM p hnd hq hp]
  constructor
  · simp [Decision.queueOf, Queue.get_set_same]
  · rfl

theorem c5_queue_cleared_on_consume_witness :
    (([mkPc "x", mkNpc "y"].map Combatant.id).Nodup) ∧
    (cloneQueue (Queue.mk none (some "y"))).get
        (effSideOf [mkPc "x", mkNpc "y"] [] true (some Side.pc) Side.pc)
      = some (mkNpc "y").id ∧
    mkNpc "y" ∈ aliveAvailOfSide [mkPc "x", mkNpc "y"] [] true
        (effSideOf [mkPc "x", mkNpc "y"] [] true (some Side.pc) Side.pc) ∧
    (((computeNextZipperCombatant [mkPc "x", mkNpc "y"] [] Side.pc (some Side.pc)
          (Queue.mk none (some "y")) true).queueOf).map
        (fun q => q.get (effSideOf [mkPc "x", mkNpc "y"] [] true (some Side.pc) Side.pc))
        = some none ∧
      (computeNextZipperCombatant [mkPc "x", mkNpc "y"] [] Side.pc (some Side.pc)
          (Queue.mk none (some "y")) true).queueChangedOf = some true) :=
  ⟨by decide, by decide, by decide,
    c5_queue_cleared_on_consume [mkPc "x", mkNpc "y"] [] Side.pc (some Side.pc)
      (Queue.mk none (some "y")) true (mkNpc "y") (by decide) (by decide) (by decide)⟩

theorem normSlot_slotWF (v : Option StoredVal) : slotWF (normSlot v) = true := by
  cases v with
  | none => rfl
  | some sv =>
    cases sv with
    | vstr s =>
      by_cases hs : s.isEmpty = true
      · simp [normSlot, hs, slotWF]
      · simp [normSlot, hs, slotWF]
    | vnum n => rfl
    | vbool b => rfl

theorem queue_fill_get_of_truthy (q : Queue) (s s' : Side) (v : Option String)
    (h : optTruthy (q.get s') = true) :
    (if optTruthy (q.get s) = true then q else q.set s v).get s' = q.get s' := by
  by_cases hc : optTruthy (q.get s) = true
  · rw [if_pos hc]
  · rw [if_neg hc]
    cases s <;> cases s' <;> first | rfl | exact absurd h hc

theorem legacyMigrate_get_of_truthy (legacy : Option StoredVal)
    (entries combatants : List Combatant) (q : Queue) (s' : Side)
    (h : optTruthy (q.get s') = true) :
    (legacyMigrate legacy entries combatants q).get s' = q.get s' := by
  unfold legacyMigrate
  split
  · split
    · exact queue_fill_get_of_truthy q _ s' _ h
    · rfl
  · rfl

theorem checkQueueSlotR_clears (mapped : List Combatant) (s : Side) (qid : String)
    (hqid : qid ≠ "")
    (hbad : ∀ e, mapLookupR mapped qid = some e →
      (¬(entrySideOf e = s) ∨ defeatedOf e = true ∨ entryActedOf e = true
        ∨ (e.isComplete == some true || isCombatantComplete e) = true)) :
    checkQueueSlotR mapped s (some qid) = (none, true) := by
  have hne : qid.isEmpty = false := str_isEmpty_false hqid
  cases hf : mapLookupR mapped qid with
  | none => simp [checkQueueSlotR, hne, hf]
  | some e =>
    rcases hbad e hf with h | h | h | h
    · simp [checkQueueSlotR, hne, hf, h]
    · by_cases hs : entrySideOf e = s
      · simp [checkQueueSlotR, hne, hf, hs, h]
      · simp [checkQueueSlotR, hne, hf, hs]
    · by_cases hs : entrySideOf e = s
      · simp [checkQueueSlotR, hne, hf, hs, h]
      · simp [checkQueueSlotR, hne, hf, hs]
    · by_cases hs : entrySideOf e = s
      · simp [checkQueueSlotR, hne, hf, hs, h]
      · simp [checkQueueSlotR, hne, hf, hs]

theorem cloneQueueState_get_slotWF (raw : RawQueue) (s : Side) :
    slotWF ((cloneQueueState raw).get s) = true := by
  cases s
  · exact normSlot_slotWF raw.pc
  · exact normSlot_slotWF raw.npc

theorem readQueuedChoices_get (raw : RawQueue) (legacy : Option StoredVal)
    (entries combatants : List Combatant) (s : Side) :
    (readQueuedChoices raw legacy entries combatants).1.get s
      = (checkQueueSlotR (mappedOf entries combatants) s
          ((legacyMigrate legacy entries combatants (cloneQueueState raw)).get s)).1 := by
  cases s <;> rfl

theorem readQueuedChoices_dirty (raw : RawQueue) (legacy : Option StoredVal)
    (entries combatants : List Combatant) :
    (readQueuedChoices raw legacy entries combatants).2
      = ((checkQueueSlotR (mappedOf entries combatants) Side.pc
            ((legacyMigrate legacy entries combatants (cloneQueueState raw)).get Side.pc)).2
        || (checkQueueSlotR (mappedOf entries combatants) Side.npc
            ((legacyMigrate legacy entries combatants (cloneQueueState raw)).get Side.npc)).2) :=
  rfl

/-- Claim C6: a queue read whose stored slot for either side references a
participant that is absent, on the wrong side, defeated, already acted, or
completed returns that slot as null; the self-healing write-back is
attempted (dirty bit set) and, in the source, wrapped in try/catch so its
failure is logged, never thrown. -/
theorem c6_queue_self_healing (raw : RawQueue) (legacy : Option StoredVal)
    (entries combatants : List Combatant) (s : Side) (qid : String)
    (hq : (cloneQueueState raw).get s = some qid)
    (hbad : ∀ e, mapLookupR (mappedOf entries combatants) qid = some e →
      (¬(entrySideOf e = s) ∨ defeatedOf e = true ∨ entryActedOf e = true
        ∨ (e.isComplete == some true || isCombatantComplete e) = true)) :
    (readQueuedChoices raw legacy entries combatants).1.get s = none ∧
    (readQueuedChoices raw legacy entries combatants).2 = true := by
  have hqne : qid ≠ "" := slotWF_some (cloneQueueState_get_slotWF raw s) hq
  have htr : optTruthy ((cloneQueueState raw).get s) = true := by
    rw [hq]
    simp [optTruthy, str_isEmpty_false hqne]
  have hleg := legacyMigrate_get_of_truthy legacy entries combatants (cloneQueueState raw) s htr
  have hclr := checkQueueSlotR_clears (mappedOf entries combatants) s qid hqne hbad
  constructor
  · rw [readQueuedChoices_get, hleg, hq, hclr]
  · rw [readQueuedChoices_dirty]
    cases s
    · rw [hleg, hq, hclr]
      simp
    · rw [hleg, hq, hclr]
      simp

theorem c6_queue_self_healing_witness :
    (cloneQueueState (RawQueue.mk none (some (StoredVal.vstr "z")))).get Side.npc
      = some "z" ∧
    (∀ e, mapLookupR (mappedOf [mkDeadPc "z"] []) "z" = some e →
      (¬(entrySideOf e = Side.npc) ∨ defeatedOf e = true ∨ entryActedOf e = true
        ∨ (e.isComplete == some true || isCombatantComplete e) = true)) ∧
    ((readQueuedChoices (RawQueue.mk none (some (StoredVal.vstr "z"))) none
        [mkDeadPc "z"] []).1.get Side.npc = none ∧
      (readQueuedChoices (RawQueue.mk none (some (StoredVal.vstr "z"))) none
        [mkDeadPc "z"] []).2 = true) :=
  ⟨by decide, by decide,
    c6_queue_self_healing (RawQueue.mk none (some (StoredVal.vstr "z"))) none
      [mkDeadPc "z"] [] Side.npc "z" (by decide) (by decide)⟩

/-- Claim C8: in an `evaluateZipperState` evaluation that settles on the pc
side with no valid queued pc entry, more than one eligible pc pool member
and the players-can-advance policy enabled, no automatic choice is made:
`needsChoice` is true and `choice` is left null. -/
theorem c8_needs_choice (turns : List Combatant) (actedFlag : List String) (forceStart : Bool)
    (startingSide : Side) (currentSideFlag : Option Side) (queue0 : Queue) (isGM : Bool)
    (heff : effSide (availE turns (evalActed forceStart actedFlag) isGM Side.pc)
        (availE turns (evalActed forceStart actedFlag) isGM Side.npc)
        (if forceStart then none else currentSideFlag) startingSide = Side.pc)
    (hnoq : queuedForSide (queueEntryE turns (evalActed forceStart actedFlag)
        (cloneQueue queue0) Side.pc) (evalActed forceStart actedFlag) = none)
    (hlen : 1 < (availE turns (evalActed forceStart actedFlag) isGM Side.pc).length) :
    (evaluateZipperState turns true actedFlag forceStart startingSide currentSideFlag
        queue0 isGM true).needsChoice = true ∧
    (evaluateZipperState turns true actedFlag forceStart startingSide currentSideFlag
        queue0 isGM true).choice = none := by
  have hpcne : availE turns (evalActed forceStart actedFlag) isGM Side.pc ≠ [] := by
    intro h
    rw [h] at hlen
    simp at hlen
  have htne : turns ≠ [] := by
    intro h
    subst h
    exact hpcne rfl
  have ht2 : turns.isEmpty = false := isEmpty_false_of_ne_nil htne
  have hbe : ((availE turns (evalActed forceStart actedFlag) isGM Side.pc).isEmpty
      && (availE turns (evalActed forceStart actedFlag) isGM Side.npc).isEmpty) = false := by
    simp [isEmpty_false_of_ne_nil hpcne]
  have hopt : (availE turns (evalActed forceStart actedFlag) isGM Side.pc).isEmpty = false :=
    isEmpty_false_of_ne_nil hpcne
  simp only [evaluateZipperState, Bool.not_true, Bool.false_eq_true, if_false, ht2, heff,
    hbe, hopt, hnoq]
  simp [hlen, hpcne]

theorem c8_needs_choice_witness :
    effSide (availE [mkPc "p", mkPc "q"] (evalActed false []) false Side.pc)
        (availE [mkPc "p", mkPc "q"] (evalActed false []) false Side.npc)
        (if false then none else none) Side.pc = Side.pc ∧
    queuedForSide (queueEntryE [mkPc "p", mkPc "q"] (evalActed false [])
        (cloneQueue emptyQueue) Side.pc) (evalActed false []) = none ∧
    1 < (availE [mkPc "p", mkPc "q"] (evalActed false []) false Side.pc).length ∧
    ((evaluateZipperState [mkPc "p", mkPc "q"] true [] false Side.pc none
        emptyQueue false true).needsChoice = true ∧
      (evaluateZipperState [mkPc "p", mkPc "q"] true [] false Side.pc none
        emptyQueue false true).choice = none) :=
  ⟨by decide, by decide, by decide,
    c8_needs_choice [mkPc "p", mkPc "q"] [] false Side.pc none emptyQueue false
      (by decide) (by decide) (by decide)⟩

/-- Claim C7: a non-GM `sendSocketRequest` call over a live socket channel
with no active GM user rejects synchronously with the authority-unavailable
message, with nothing emitted and no timeout timer started; and a pending
request rejects with the timeout message only exactly when the full timeout
elapses without an earlier reply. -/
theorem c7_authority_unavailable :
    sendSocketRequest false true false
      = SendAttempt.mk (SendPhase.rejected "No active GM to process request.") false false ∧
    (∀ (timeoutMs : Nat) (replyAt : Option Nat) (replySuccess : Bool) (t : Nat),
      pendingResolution timeoutMs replyAt replySuccess = ReplyResult.timedOut t →
        t = timeoutMs ∧ ∀ u, replyAt = some u → timeoutMs ≤ u) := by
  constructor
  · rfl
  · intro timeoutMs replyAt replySuccess t h
    cases replyAt with
    | none =>
      simp only [pendingResolution, ReplyResult.timedOut.injEq] at h
      exact ⟨h.symm, fun u hu => by cases hu⟩
    | some u =>
      by_cases hu : u < timeoutMs
      · cases replySuccess <;> simp [pendingResolution, hu] at h
      · simp only [pendingResolution, if_neg hu, ReplyResult.timedOut.injEq] at h
        refine ⟨h.symm, fun v hv => ?_⟩
        cases hv
        omega

theorem c7_authority_unavailable_witness :
    pendingResolution SOCKET_TIMEOUT_MS none true = ReplyResult.timedOut SOCKET_TIMEOUT_MS ∧
    (SOCKET_TIMEOUT_MS = SOCKET_TIMEOUT_MS ∧
      ∀ u, (none : Option Nat) = some u → SOCKET_TIMEOUT_MS ≤ u) :=
  ⟨rfl, c7_authority_unavailable.2 SOCKET_TIMEOUT_MS none true SOCKET_TIMEOUT_MS rfl⟩

/-- Claim C9 counterexample: dismissing the round-complete dialog without
pressing either button resolves `promptRoundAdvanceOrEnd` to next-round,
and the `nextTurn` wrapper then advances the round — a default action is
taken without an explicit operator response, contradicting the claim that
no round advance occurs for every non-button termination of the prompt. -/
theorem c9_no_default_counterexample :
    nextTurnBoundaryAction (promptRoundAdvanceOrEnd PromptEvent.dismissed)
      = BoundaryAction.advanceRound := rfl

/-- Claim C9 amended: the flow suspends on the round-boundary dialog, and
pressing End Combat ends the combat; but every other termination — pressing
Start Next Round, dismissing the dialog without a button press, or a non-GM
evaluation that never prompts — defaults to advancing the round. -/
theorem c9_boundary_behavior :
    nextTurnBoundaryAction (boundaryDecision true PromptEvent.pressEnd)
      = BoundaryAction.endCombat ∧
    nextTurnBoundaryAction (boundaryDecision true PromptEvent.pressNext)
      = BoundaryAction.advanceRound ∧
    nextTurnBoundaryAction (boundaryDecision true PromptEvent.dismissed)
      = BoundaryAction.advanceRound ∧
    (∀ ev, nextTurnBoundaryAction (boundaryDecision false ev)
      = BoundaryAction.advanceRound) := by
  refine ⟨rfl, rfl, rfl, fun ev => rfl⟩

theorem queueWF_set {q : Queue} {s : Side} {v : Option String} (hq : queueWF q = true)
    (hv : slotWF v = true) : queueWF (q.set s v) = true := by
  cases s <;> simp_all [queueWF, Queue.set]

theorem legacyIdOf_truthy {legacy : Option StoredVal} {lid : String}
    (h1 : svTruthy legacy = true) (h2 : legacyIdOf legacy = some lid) : lid ≠ "" := by
  cases legacy with
  | none => cases h2
  | some sv =>
    cases sv with
    | vstr s =>
      simp only [legacyIdOf, Option.some.injEq] at h2
      subst h2
      simp only [svTruthy, Bool.not_eq_true'] at h1
      intro he
      subst he
      exact absurd h1 (by decide)
    | vnum n => cases h2
    | vbool b => cases h2

theorem legacyMigrate_WF (legacy : Option StoredVal) (entries combatants : List Combatant)
    {q : Queue} (hq : queueWF q = true) :
    queueWF (legacyMigrate legacy entries combatants q) = true := by
  unfold legacyMigrate
  split
  · rename_i hsv
    split
    · rename_i a b s hside d hlid
      split
      · exact hq
      · exact queueWF_set hq
          (by simp [slotWF, str_isEmpty_false (legacyIdOf_truthy hsv hlid)])
    · exact hq
  · exact hq

theorem checkQueueSlotR_slot_cases (mapped : List Combatant) (side : Side)
    (slot : Option String) :
    (checkQueueSlotR mapped side slot).1 = none
      ∨ (checkQueueSlotR mapped side slot).1 = slot := by
  unfold checkQueueSlotR
  split
  · exact Or.inl rfl
  · split
    · exact Or.inr rfl
    · split
      · exact Or.inl rfl
      · split
        · exact Or.inl rfl
        · split
          · exact Or.inl rfl
          · exact Or.inr rfl

theorem checkQueueSlotR_slotWF (mapped : List Combatant) (side : Side) {slot : Option String}
    (hwf : slotWF slot = true) : slotWF (checkQueueSlotR mapped side slot).1 = true := by
  rcases checkQueueSlotR_slot_cases mapped side slot with h | h
  · rw [h]
    rfl
  · rw [h]
    exact hwf

theorem cloneQueueState_WF (raw : RawQueue) : queueWF (cloneQueueState raw) = true := by
  simp [queueWF, cloneQueueState, normSlot_slotWF]

theorem cloneQueue_WF (q : Queue) : queueWF (cloneQueue q) = true := by
  unfold queueWF
  rw [clone_pc_slotWF, clone_npc_slotWF]
  rfl

theorem readQueuedChoices_WF (raw : RawQueue) (legacy : Option StoredVal)
    (entries combatants : List Combatant) :
    queueWF ((readQueuedChoices raw legacy entries combatants).1) = true := by
  have h1 := legacyMigrate_WF legacy entries combatants (cloneQueueState_WF raw)
  unfold queueWF at h1
  obtain ⟨hpc, hnpc⟩ := Bool.and_eq_true_iff.mp h1
  simp only [readQueuedChoices, queueWF]
  exact Bool.and_eq_true_iff.mpr
    ⟨checkQueueSlotR_slotWF (mappedOf entries combatants) Side.pc hpc,
      checkQueueSlotR_slotWF (mappedOf entries combatants) Side.npc hnpc⟩

/-- Claim C10 counterexample: `updateQueuedChoice` called with an
empty-string combatant id returns the merged record with the raw empty
string in the pc slot — a produced queue value whose slot is neither a
non-empty string nor null, so the claim fails as stated. -/
theorem c10_shape_counterexample :
    queueWF (updateQueuedChoice (RawQueue.mk none none) none [] Side.pc (some "")) = false := by
  decide

/-- Claim C10 amended: queue values produced by `emptyQueue`,
`cloneQueueState`, `applyQueuedChoiceFlags`, `persistQueuedChoices` and
`readQueuedChoices` always have pc and npc slots that are null or non-empty
strings; `updateQueuedChoice` returns such a value only when the supplied
combatant id is itself null or a non-empty string (the value it persists is
always normalized, but its return value echoes the raw id). -/
theorem c10_queue_shape :
    queueWF emptyQueue = true ∧
    (∀ raw : RawQueue, queueWF (cloneQueueState raw) = true) ∧
    (∀ q : Queue, queueWF (applyQueuedChoiceFlags q) = true) ∧
    (∀ q : Queue, queueWF (persistQueuedChoices q) = true) ∧
    (∀ (raw : RawQueue) (legacy : Option StoredVal) (entries combatants : List Combatant),
      queueWF ((readQueuedChoices raw legacy entries combatants).1) = true) ∧
    (∀ (raw : RawQueue) (legacy : Option StoredVal) (combatants : List Combatant)
      (side : Side) (combatantId : Option String), slotWF combatantId = true →
        queueWF (updateQueuedChoice raw legacy combatants side combatantId) = true) := by
  refine ⟨rfl, cloneQueueState_WF, fun q => cloneQueue_WF q, fun q => cloneQueue_WF q,
    readQueuedChoices_WF, ?_⟩
  intro raw legacy combatants side combatantId hid
  show queueWF
    (if ((readQueuedChoices raw legacy [] combatants).1.get side == combatantId) = true
      then (readQueuedChoices raw legacy [] combatants).1
      else (readQueuedChoices raw legacy [] combatants).1.set side combatantId) = true
  split
  · exact readQueuedChoices_WF raw legacy [] combatants
  · exact queueWF_set (readQueuedChoices_WF raw legacy [] combatants) hid

theorem c10_queue_shape_witness :
    slotWF (some "a") = true ∧
    queueWF (updateQueuedChoice (RawQueue.mk none none) none [] Side.pc (some "a")) = true :=
  ⟨by decide,
    c10_queue_shape.2.2.2.2.2 (RawQueue.mk none none) none [] Side.pc (some "a") (by decide)⟩

end WngZipper
